import Mathlib

/-!
Shallow embedding of the image-delivery CDN worker
(`packages/cdn/src/cache.ts` and `packages/cdn/src/origin.ts`).

Strings, headers, URLs and byte buffers are modelled explicitly:
  * request/response headers are association lists of (name, value) strings;
  * URLs are records of scheme, host, port, path and decoded query
    parameters (the WHATWG `URL` object with its `searchParams` view);
  * byte buffers (`ArrayBuffer` / `Uint8Array`) are `List Nat` with each
    entry a byte value; out-of-range indexing, which in JavaScript yields
    `undefined` so that every `=== byte` comparison fails, is modelled by
    `List.getElem?` returning `none`.

JavaScript's stable `Array.prototype.sort` is modelled by a stable
insertion sort over the same comparator; ASCII-relevant case folding
models `String.prototype.toLowerCase` on header values.
-/

namespace ImageCDN

/-! ### Basic character and string helpers -/

/-- ASCII lower-casing of a single character, modelling the effect of
JavaScript `toLowerCase` on the ASCII range (all header directives and
names compared in the source are ASCII). -/
def asciiLower (c : Char) : Char :=
  if 'A' ≤ c && c ≤ 'Z' then Char.ofNat (c.toNat + 32) else c

/-- Lower-case a string character-wise (`String.prototype.toLowerCase`). -/
def lowerStr (s : String) : String :=
  String.mk (s.data.map asciiLower)

/-- `needle` occurs as a contiguous sublist of the second argument
(JavaScript `String.prototype.includes`). -/
def containsList (needle : List Char) : List Char → Bool
  | [] => needle.isEmpty
  | c :: t => needle.isPrefixOf (c :: t) || containsList needle t

/-- JavaScript `s.includes(pat)` for strings. -/
def strContains (s pat : String) : Bool :=
  containsList pat.data s.data

/-- JavaScript `s.startsWith(p)`, character-wise. -/
def strStartsWith (s p : String) : Bool :=
  p.data.isPrefixOf s.data

/-- A regex word character `[A-Za-z0-9_]`, for `\b` boundaries. -/
def isWordChar (c : Char) : Bool :=
  c.isAlphanum || c = '_'

/-- Whitespace as matched by the JavaScript regex class `\s` and skipped
by `Number.parseInt` (ASCII whitespace plus NBSP and BOM). -/
def isJsSpace (c : Char) : Bool :=
  c = ' ' || c = '\t' || c = '\n' || c = '\r' ||
    c.toNat = 11 || c.toNat = 12 || c.toNat = 0xA0 || c.toNat = 0xFEFF

/-- Match the tail `\s*0\b` of the `max-age` regex at the head of `cs`. -/
def matchZeroTail (cs : List Char) : Bool :=
  match cs.dropWhile isJsSpace with
  | '0' :: rest =>
    match rest with
    | [] => true
    | c :: _ => !isWordChar c
  | _ => false

/-- Match `max-age\s*=\s*0\b` at the head of `cs`. -/
def matchMaxAgeHere (cs : List Char) : Bool :=
  if ['m', 'a', 'x', '-', 'a', 'g', 'e'].isPrefixOf cs then
    match (cs.drop 7).dropWhile isJsSpace with
    | '=' :: rest => matchZeroTail rest
    | _ => false
  else false

/-- Scan for an occurrence of `\bmax-age\s*=\s*0\b`; `prev` is the
character immediately before the scan position (`none` at the start of
the string), used for the leading word boundary. -/
def maxAgeScan (prev : Option Char) : List Char → Bool
  | [] => false
  | c :: t =>
    ((match prev with
      | none => true
      | some p => !isWordChar p) && matchMaxAgeHere (c :: t))
      || maxAgeScan (some c) t

/-- The test of the regex `/\bmax-age\s*=\s*0\b/` from `putCache`. -/
def maxAgeZeroTest (s : String) : Bool :=
  maxAgeScan none s.data

/-- Numeric value of an ASCII digit. -/
def digitVal (c : Char) : Nat := c.toNat - 48

/-- Decimal value of a digit list. -/
def digitsToNat (ds : List Char) : Nat :=
  ds.foldl (fun acc c => acc * 10 + digitVal c) 0

/-- `Number.parseInt(s, 10)`: skip leading whitespace, read an optional
sign, then the longest leading run of decimal digits; `none` models the
result `NaN` when no digit is found. -/
def parseIntJs (s : String) : Option Int :=
  let cs := s.data.dropWhile isJsSpace
  let signAndRest : Int × List Char :=
    match cs with
    | '-' :: r => (-1, r)
    | '+' :: r => (1, r)
    | _ => (1, cs)
  let digits := signAndRest.2.takeWhile Char.isDigit
  if digits.isEmpty then none
  else some (signAndRest.1 * (digitsToNat digits : Int))

/-! ### Percent-encoding -/

/-- Upper-case hexadecimal digit, as produced by percent-encoding. -/
def hexDigitUpper (n : Nat) : Char :=
  if n < 10 then Char.ofNat (48 + n) else Char.ofNat (55 + n)

/-- `%XX` escape of one byte. -/
def percentEncodeByte (b : Nat) : String :=
  String.mk ['%', hexDigitUpper (b / 16), hexDigitUpper (b % 16)]

/-- UTF-8 bytes of one character. -/
def utf8Bytes (c : Char) : List Nat :=
  (String.mk [c]).toUTF8.toList.map (fun b => b.toNat)

/-- Characters left unescaped by `encodeURIComponent`:
`A-Z a-z 0-9 - _ . ! ~ * ' ( )` (the apostrophe is written by code). -/
def isComponentUnreserved (c : Char) : Bool :=
  c.isAlphanum || c = '-' || c = '_' || c = '.' || c = '!' || c = '~' ||
    c = '*' || c.toNat = 39 || c = '(' || c = ')'

/-- `encodeURIComponent` on a single character. -/
def encodeComponentChar (c : Char) : String :=
  if isComponentUnreserved c then String.mk [c]
  else String.join ((utf8Bytes c).map percentEncodeByte)

/-- `encodeURIComponent(key).replace(/%2F/g, "/")` from `fetchFromOrigin`.
Character-wise formulation: `/` is the only character whose encoding is
exactly `%2F`, percent escapes always start at a `%` produced for a whole
character, and a literal `%` in `key` encodes to `%25` so the replacement
never matches across characters; hence the global replacement is the same
as leaving `/` unescaped. -/
def encodeKeyPreservingSlash (key : String) : String :=
  String.join (key.data.map (fun c => if c = '/' then "/" else encodeComponentChar c))

/-- Characters serialized verbatim by `application/x-www-form-urlencoded`
(`URLSearchParams.toString`): `A-Z a-z 0-9 * - . _`. -/
def isFormSafe (c : Char) : Bool :=
  c.isAlphanum || c = '*' || c = '-' || c = '.' || c = '_'

/-- Form-urlencoding of one character (space becomes `+`). -/
def formEncodeChar (c : Char) : String :=
  if c = ' ' then "+"
  else if isFormSafe c then String.mk [c]
  else String.join ((utf8Bytes c).map percentEncodeByte)

/-- Form-urlencoding of a string. -/
def formEncode (s : String) : String :=
  String.join (s.data.map formEncodeChar)

/-- `URLSearchParams.toString()`: serialize the (name, value) pairs. -/
def serializeParams (ps : List (String × String)) : String :=
  String.intercalate "&" (ps.map (fun p => formEncode p.1 ++ "=" ++ formEncode p.2))

/-! ### URL model -/

/-- A parsed WHATWG `URL`: scheme, host, optional port (empty string for
the scheme default), path, and the decoded query parameter pairs exposed
through `searchParams`. -/
structure URLRec where
  scheme : String
  host : String
  port : String
  path : String
  params : List (String × String)
deriving Repr, DecidableEq

/-- `URL.origin`: the serialized scheme+host+port triple. -/
def urlOrigin (u : URLRec) : String :=
  u.scheme ++ "://" ++ u.host ++ (if u.port = "" then "" else ":" ++ u.port)

/-- `URL.toString()`: origin, path, and the serialized query (with no `?`
when there are no parameters, matching a URL whose `search` is empty). -/
def urlToString (u : URLRec) : String :=
  urlOrigin u ++ u.path ++
    (if u.params.isEmpty then "" else "?" ++ serializeParams u.params)

/-- One step of WHATWG dot-segment removal. -/
def normalizeStep (acc : List String) (seg : String) : List String :=
  if seg = "." then acc
  else if seg = ".." then acc.dropLast
  else acc ++ [seg]

/-- Dot-segment removal over the `/`-separated segments of a path; a
trailing `.` or `..` segment leaves a trailing slash. -/
def normalizeSegs (segs : List String) : List String :=
  let out := segs.dropLast.foldl normalizeStep []
  match segs.getLast? with
  | none => []
  | some s => if s = "." || s = ".." then normalizeStep out s ++ [""] else out ++ [s]

/-- Resolution of a path-absolute reference (`new URL(p, base)` for `p`
starting with `/`): the path is `p` with dot segments removed. -/
def resolvePathAbsolute (p : String) : String :=
  "/" ++ String.intercalate "/" (normalizeSegs ((p.drop 1).splitOn "/"))

/-! ### Cache key normalization (`createCacheKey`, cache.ts) -/

/-- Strict comparison of two characters by code value, as JavaScript
compares string elements (identical to code-unit order on the basic
multilingual plane, where all inputs of this service live). -/
def charLtB (a b : Char) : Bool :=
  decide (a.toNat < b.toNat)

/-- Lexicographic strict comparison of character lists: the order behind
the JavaScript `<` / `>` operators on strings. -/
def charListLt : List Char → List Char → Bool
  | _, [] => false
  | [], _ :: _ => true
  | a :: as, b :: bs =>
    if charLtB a b then true
    else if charLtB b a then false
    else charListLt as bs

/-- JavaScript `a < b` on strings. -/
def jsStrLt (a b : String) : Bool :=
  charListLt a.data b.data

/-- Insert a pair into a list sorted by parameter name, before the first
entry whose name is not smaller — the position a stable sort keyed on the
name assigns to an element originally in front of the list. -/
def insertParam (x : String × String) : List (String × String) → List (String × String)
  | [] => [x]
  | y :: ys => if jsStrLt y.1 x.1 then y :: insertParam x ys else x :: y :: ys

/-- Stable sort of parameter pairs by name, modelling the stable
`Array.prototype.sort` with the comparator
`([a], [b]) => a < b ? -1 : a > b ? 1 : 0` from `createCacheKey`. -/
def sortParams : List (String × String) → List (String × String)
  | [] => []
  | x :: xs => insertParam x (sortParams xs)

/-- `createCacheKey` (cache.ts lines 6–22): copy the search parameters,
sort them by name, clear the query of a copy of the URL, append the
sorted pairs and serialize. -/
def createCacheKey (url : URLRec) : String :=
  let sortedParams := sortParams url.params
  urlToString { url with params := sortedParams }

/-- The sub-list of parameter pairs whose name is `n`, in order: the
per-name view under which a stable sort is invariant. -/
def pfilter (n : String) (l : List (String × String)) : List (String × String) :=
  l.filter (fun p => p.1 == n)

/-- "Not greater by name": the order under which `sortParams` outputs are
`Pairwise`-sorted. -/
def keyLe (a b : String × String) : Prop :=
  jsStrLt b.1 a.1 = false

/-! ### Responses, headers and the cache store -/

deriving instance DecidableEq for Except

/-- A platform `Response`: status, status text, headers and body bytes. -/
structure ResponseRec where
  status : Nat
  statusText : String
  headers : List (String × String)
  body : List Nat
deriving Repr, DecidableEq

/-- `Response.ok`: status in the 2xx range. -/
def responseOk (r : ResponseRec) : Bool :=
  200 ≤ r.status && r.status ≤ 299

/-- `Headers.get(name)`: case-insensitive name lookup, `none` for an
absent header, the `", "`-joined values otherwise. -/
def headersGet (hs : List (String × String)) (name : String) : Option String :=
  let vs := (hs.filter (fun h => lowerStr h.1 == lowerStr name)).map Prod.snd
  if vs.isEmpty then none else some (String.intercalate ", " vs)

/-- The platform cache (`caches.default`), a URL-keyed response store. -/
abbrev CacheModel := List (String × ResponseRec)

/-- `cache.match(cacheKey)`. -/
def cacheLookup (cache : CacheModel) (k : String) : Option ResponseRec :=
  match cache.find? (fun e => e.1 == k) with
  | some e => some e.2
  | none => none

/-- `cache.put(cacheKey, response)`: the new entry supersedes any entry
with the same key. -/
def cachePut (cache : CacheModel) (k : String) (r : ResponseRec) : CacheModel :=
  (k, r) :: cache.filter (fun e => !(e.1 == k))

/-- `matchCache` (cache.ts lines 27–34): look the canonical key up in the
cache store. -/
def matchCache (cache : CacheModel) (reqUrl : URLRec) : Option ResponseRec :=
  cacheLookup cache (createCacheKey reqUrl)

/-- `putCache` (cache.ts lines 40–65): return without writing when the
`Cache-Control` header is absent or empty (`!cacheControl` is true for
the empty string) or when its lower-cased value contains `no-store`,
contains `private`, or matches `/\bmax-age\s*=\s*0\b/`; otherwise store a
clone of the response under the canonical cache key. -/
def putCache (cache : CacheModel) (reqUrl : URLRec) (response : ResponseRec) : CacheModel :=
  match headersGet response.headers "Cache-Control" with
  | none => cache
  | some cacheControl =>
    if cacheControl == "" then cache
    else
      let normalizedCacheControl := lowerStr cacheControl
      if strContains normalizedCacheControl "no-store" ||
          strContains normalizedCacheControl "private" ||
          maxAgeZeroTest normalizedCacheControl then cache
      else cachePut cache (createCacheKey reqUrl) response

/-! ### Origin gateway (`fetchFromOrigin`, origin.ts) -/

/-- `ORIGIN_TIMEOUT_MS` (origin.ts line 4). -/
def ORIGIN_TIMEOUT_MS : Nat := 30000

/-- `new HTTPException(status, {message})` as thrown by the gateway. -/
structure HTTPException where
  status : Nat
  message : String
deriving Repr, DecidableEq

/-- A value thrown by `fetch`: an `Error` object carrying a `name`, or
any non-`Error` value (for which `instanceof Error` is false). -/
inductive Thrown where
  | errObj (name : String)
  | nonError
deriving Repr, DecidableEq

/-- The outcome of the platform `fetch` call, supplied as an oracle:
either a response or a thrown value (timeout, DNS failure, …). -/
inductive FetchOutcome where
  | success (r : ResponseRec)
  | failure (t : Thrown)
deriving Repr, DecidableEq

/-- `new URL("/transform/" + encodedKey, originUrl)` followed by
`transformUrl.search = params.toString()`: a path-absolute reference
keeps the base URL's scheme, host and port; the encoded key contains no
`?`, `#` or `\` (every such character is percent-escaped), so the whole
string is parsed as the path, with dot segments removed. -/
def buildTransformUrl (originUrl : URLRec) (key : String)
    (params : List (String × String)) : URLRec :=
  { originUrl with
    path := resolvePathAbsolute ("/transform/" ++ encodeKeyPreservingSlash key)
    params := params }

/-- The pre-dispatch phase of `fetchFromOrigin` (origin.ts lines 14–24):
build the transform URL, then compare its origin against
`new URL(originUrl).origin`; `some` is the URL handed to `fetch`, `none`
means the 400 guard fired and nothing is dispatched. -/
def originDispatch (originUrl : URLRec) (key : String)
    (params : List (String × String)) : Option URLRec :=
  let transformUrl := buildTransformUrl originUrl key params
  let expectedOrigin := urlOrigin originUrl
  if urlOrigin transformUrl = expectedOrigin then some transformUrl else none

/-- `fetchFromOrigin` (origin.ts lines 9–47). The configured origin is
taken already parsed (`new URL(originUrl)` applied to the trusted
configuration string); the network is the `outcome` oracle. A thrown
`Error` named `TimeoutError` maps to 504, every other thrown value to
502; a fetched response is returned as-is. -/
def fetchFromOrigin (originUrl : URLRec) (key : String)
    (params : List (String × String)) (outcome : FetchOutcome) :
    Except HTTPException ResponseRec :=
  match originDispatch originUrl key params with
  | none => .error ⟨400, "Invalid origin URL"⟩
  | some _ =>
    match outcome with
    | .success response => .ok response
    | .failure (.errObj n) =>
      if n == "TimeoutError" then .error ⟨504, "Gateway Timeout"⟩
      else .error ⟨502, "Bad Gateway"⟩
    | .failure .nonError => .error ⟨502, "Bad Gateway"⟩

/-! ### Key validation and MIME sniffing (cache.ts) -/

/-- `MAX_FILE_SIZE` (cache.ts line 13): 10 MiB. -/
def MAX_FILE_SIZE : Nat := 10 * 1024 * 1024

/-- `extractKeyFromPath` (cache.ts lines 18–21): strip a leading
`/images/`, then turn the empty string into `null`. -/
def extractKeyFromPath (path : String) : Option String :=
  let key := if strStartsWith path "/images/" then String.mk (path.data.drop 8) else path
  if key == "" then none else some key

/-- A character of the class `[a-zA-Z0-9\-_\/.]`. -/
def isSafeKeyChar (c : Char) : Bool :=
  ('a' ≤ c && c ≤ 'z') || ('A' ≤ c && c ≤ 'Z') || ('0' ≤ c && c ≤ '9') ||
    c = '-' || c = '_' || c = '/' || c = '.'

/-- The test of `/^[a-zA-Z0-9\-_\/.]+$/`: at least one character, all of
them in the class. -/
def safeKeyTest (key : String) : Bool :=
  !key.data.isEmpty && key.data.all isSafeKeyChar

/-- `validateKey` (cache.ts lines 26–34): reject the empty key and the
traversal patterns, then require the safe character set. -/
def validateKey (key : String) : Bool :=
  if key == "" || strContains key ".." || strStartsWith key "/" || strContains key "//" then
    false
  else safeKeyTest key

/-- JPEG signature: bytes 0–2 are `FF D8 FF`. Out-of-range reads are
`none` and fail every comparison, as `undefined === byte` does. -/
def sigJpeg (bytes : List Nat) : Bool :=
  bytes[0]? == some 0xff && bytes[1]? == some 0xd8 && bytes[2]? == some 0xff

/-- PNG signature: bytes 0–3 are `89 50 4E 47`. -/
def sigPng (bytes : List Nat) : Bool :=
  bytes[0]? == some 0x89 && bytes[1]? == some 0x50 &&
    bytes[2]? == some 0x4e && bytes[3]? == some 0x47

/-- GIF signature: bytes 0–2 are `47 49 46`. -/
def sigGif (bytes : List Nat) : Bool :=
  bytes[0]? == some 0x47 && bytes[1]? == some 0x49 && bytes[2]? == some 0x46

/-- WebP signature: bytes 8–11 are `57 45 42 50`. -/
def sigWebp (bytes : List Nat) : Bool :=
  bytes[8]? == some 0x57 && bytes[9]? == some 0x45 &&
    bytes[10]? == some 0x42 && bytes[11]? == some 0x50

/-- AVIF signature: bytes 4–7 are `ftyp` and bytes 8–11 are `avif` or
`avis`. -/
def sigAvif (bytes : List Nat) : Bool :=
  bytes[4]? == some 0x66 && bytes[5]? == some 0x74 &&
    bytes[6]? == some 0x79 && bytes[7]? == some 0x70 &&
    ((bytes[8]? == some 0x61 && bytes[9]? == some 0x76 &&
        bytes[10]? == some 0x69 && bytes[11]? == some 0x66) ||
      (bytes[8]? == some 0x61 && bytes[9]? == some 0x76 &&
        bytes[10]? == some 0x69 && bytes[11]? == some 0x73))

/-- `detectMimeType` (cache.ts lines 39–89): check the five signatures on
the first 16 bytes in source order; throw `Unsupported file type` when
none matches. -/
def detectMimeType (buffer : List Nat) : Except String String :=
  let bytes := buffer.take 16
  if sigJpeg bytes then .ok "image/jpeg"
  else if sigPng bytes then .ok "image/png"
  else if sigGif bytes then .ok "image/gif"
  else if sigWebp bytes then .ok "image/webp"
  else if sigAvif bytes then .ok "image/avif"
  else .error "Unsupported file type"

/-- The MIME types of all signatures matching `bytes`, in the order of
the signature table. -/
def sigResults (bytes : List Nat) : List String :=
  (if sigJpeg bytes then ["image/jpeg"] else []) ++
    (if sigPng bytes then ["image/png"] else []) ++
    (if sigGif bytes then ["image/gif"] else []) ++
    (if sigWebp bytes then ["image/webp"] else []) ++
    (if sigAvif bytes then ["image/avif"] else [])

/-! ### Route handlers (cache.ts) -/

/-- Observable outcome of the GET handler: response status, the value of
the `X-Cache` marker header when one is set, and whether a write-back
task was scheduled through `executionCtx.waitUntil`. -/
structure GetResult where
  status : Nat
  xCache : Option String
  scheduled : Bool
deriving Repr, DecidableEq

/-- `app.get("/images/*")` (cache.ts lines 95–140): validate the key,
try the cache, otherwise fetch from the origin URL of the environment;
schedule the `putCache` write-back only for an `ok` origin response. The
returned cache is the store after the scheduled write-back (if any) has
run. -/
def getImages (env : URLRec) (req : URLRec) (cache : CacheModel)
    (outcome : FetchOutcome) : GetResult × CacheModel :=
  match extractKeyFromPath req.path with
  | none => (⟨400, none, false⟩, cache)
  | some key =>
    if validateKey key then
      match matchCache cache req with
      | some cached => (⟨cached.status, some "HIT", false⟩, cache)
      | none =>
        match fetchFromOrigin env key req.params outcome with
        | .error e => (⟨e.status, none, false⟩, cache)
        | .ok originResponse =>
          if responseOk originResponse then
            (⟨originResponse.status, some "MISS", true⟩,
              putCache cache req originResponse)
          else (⟨originResponse.status, some "MISS", false⟩, cache)
    else (⟨400, none, false⟩, cache)

/-- A PUT request: path, declared `Content-Length` header (absent or a
string) and the body bytes that `arrayBuffer()` would materialize. -/
structure PutRequest where
  path : String
  contentLength : Option String
  body : List Nat
deriving Repr, DecidableEq

/-- Observable outcome of the PUT handler: response status, whether the
body was read (`arrayBuffer()` reached), and the object-store write
(key, bytes, detected content type) when one happened. -/
structure PutResult where
  status : Nat
  bodyRead : Bool
  stored : Option (String × List Nat × String)
deriving Repr, DecidableEq

/-- The declared-size guard `contentLength && parseInt(contentLength, 10)
> MAX_FILE_SIZE`: an absent header and the empty string are falsy, and a
`NaN` parse compares false. -/
def declaredTooLarge (contentLength : Option String) : Bool :=
  match contentLength with
  | none => false
  | some cl =>
    if cl == "" then false
    else
      match parseIntJs cl with
      | some n => decide ((MAX_FILE_SIZE : Int) < n)
      | none => false

/-- `app.put("/images/*")` (cache.ts lines 146–198): validate the key,
apply the declared-size guard before reading the body, materialize the
body, re-check its actual length, sniff the MIME type (an unsupported
type maps to 415), and store on success. -/
def putImages (req : PutRequest) : PutResult :=
  match extractKeyFromPath req.path with
  | none => ⟨400, false, none⟩
  | some key =>
    if validateKey key then
      if declaredTooLarge req.contentLength then ⟨413, false, none⟩
      else
        let body := req.body
        if MAX_FILE_SIZE < body.length then ⟨413, true, none⟩
        else
          match detectMimeType body with
          | .ok contentType => ⟨201, true, some (key, body, contentType)⟩
          | .error _ => ⟨415, true, none⟩
    else ⟨400, false, none⟩

/-! ### Claim-side predicates

Predicates transcribing the words of spec claims about the cache-store
policy, to be compared against the behaviour of `putCache`. -/

/-- Modelled from the claim's words: the response "carries a
Cache-Control header whose case-insensitive value does not contain
`no-store`, does not contain `private`, and does not contain a max-age
directive equal to zero (with arbitrary whitespace tolerated around
`=`)". -/
def claimAllowsStore (r : ResponseRec) : Bool :=
  match headersGet r.headers "Cache-Control" with
  | none => false
  | some cc =>
    !strContains (lowerStr cc) "no-store" &&
      !strContains (lowerStr cc) "private" &&
      !maxAgeZeroTest (lowerStr cc)

/-- The amended storage condition: as `claimAllowsStore`, but the header
value must also be non-empty. -/
def specAllowsStore (r : ResponseRec) : Bool :=
  match headersGet r.headers "Cache-Control" with
  | none => false
  | some cc =>
    !(cc == "") && !strContains (lowerStr cc) "no-store" &&
      !strContains (lowerStr cc) "private" &&
      !maxAgeZeroTest (lowerStr cc)

/-! ## Helper lemmas: the string order behind the sort comparator -/

theorem charLtB_true {a b : Char} : charLtB a b = true ↔ a.toNat < b.toNat := by
  simp [charLtB]

theorem charLtB_false {a b : Char} : charLtB a b = false ↔ b.toNat ≤ a.toNat := by
  simp [charLtB, Nat.not_lt]

theorem char_eq_of_toNat_eq {a b : Char} (h : a.toNat = b.toNat) : a = b := by
  have h2 := congrArg Char.ofNat h
  rwa [Char.ofNat_toNat, Char.ofNat_toNat] at h2

theorem string_eq_of_data_eq {a b : String} (h : a.data = b.data) : a = b := by
  cases a
  cases b
  exact congrArg String.mk h

theorem charListLt_irrefl (l : List Char) : charListLt l l = false := by
  induction l with
  | nil => rfl
  | cons a as ih => simp [charListLt, charLtB, ih]

theorem charListLt_negTrans :
    ∀ a b c : List Char, charListLt a b = false → charListLt b c = false →
      charListLt a c = false
  | a, _, [], _, _ => by cases a <;> rfl
  | [], [], _ :: _, _, hbc => by simp [charListLt] at hbc
  | [], _ :: _, _ :: _, hab, _ => by simp [charListLt] at hab
  | _ :: _, [], _ :: _, _, hbc => by simp [charListLt] at hbc
  | x :: xs, y :: ys, z :: zs, hab, hbc => by
    simp only [charListLt] at hab hbc ⊢
    by_cases hxy : charLtB x y = true
    · rw [if_pos hxy] at hab
      exact Bool.noConfusion hab
    rw [if_neg hxy] at hab
    by_cases hyz : charLtB y z = true
    · rw [if_pos hyz] at hbc
      exact Bool.noConfusion hbc
    rw [if_neg hyz] at hbc
    have hxyF : charLtB x y = false := by simpa using hxy
    have hyzF : charLtB y z = false := by simpa using hyz
    have hYX : y.toNat ≤ x.toNat := charLtB_false.mp hxyF
    have hZY : z.toNat ≤ y.toNat := charLtB_false.mp hyzF
    have hxz : charLtB x z = false := charLtB_false.mpr (Nat.le_trans hZY hYX)
    rw [if_neg (by simp [hxz])]
    by_cases hzx : charLtB z x = true
    · rw [if_pos hzx]
    · rw [if_neg hzx]
      have hXZ : x.toNat ≤ z.toNat := charLtB_false.mp (by simpa using hzx)
      have hXY : x.toNat = y.toNat := Nat.le_antisymm (Nat.le_trans hXZ hZY) hYX
      have hYZ : y.toNat = z.toNat := Nat.le_antisymm (hXY ▸ hXZ) hZY
      have hyx : charLtB y x = false := charLtB_false.mpr (Nat.le_of_eq hXY)
      have hzy : charLtB z y = false := charLtB_false.mpr (Nat.le_of_eq hYZ)
      rw [if_neg (by simp [hyx])] at hab
      rw [if_neg (by simp [hzy])] at hbc
      exact charListLt_negTrans xs ys zs hab hbc

theorem charListLt_conn :
    ∀ a b : List Char, charListLt a b = false → charListLt b a = false → a = b
  | [], [], _, _ => rfl
  | [], _ :: _, hab, _ => by simp [charListLt] at hab
  | _ :: _, [], _, hba => by simp [charListLt] at hba
  | x :: xs, y :: ys, hab, hba => by
    simp only [charListLt] at hab hba
    by_cases hxy : charLtB x y = true
    · rw [if_pos hxy] at hab
      exact Bool.noConfusion hab
    rw [if_neg hxy] at hab
    by_cases hyx : charLtB y x = true
    · rw [if_pos hyx] at hba
      exact Bool.noConfusion hba
    rw [if_neg hyx] at hab
    have hx : x = y :=
      char_eq_of_toNat_eq
        (Nat.le_antisymm (charLtB_false.mp (by simpa using hyx))
          (charLtB_false.mp (by simpa using hxy)))
    rw [if_neg hyx, if_neg hxy] at hba
    rw [hx, charListLt_conn xs ys hab hba]

theorem jsStrLt_irrefl (s : String) : jsStrLt s s = false :=
  charListLt_irrefl s.data

theorem jsStrLt_negTrans {a b c : String} (hab : jsStrLt a b = false)
    (hbc : jsStrLt b c = false) : jsStrLt a c = false :=
  charListLt_negTrans a.data b.data c.data hab hbc

theorem jsStrLt_conn {a b : String} (hab : jsStrLt a b = false)
    (hba : jsStrLt b a = false) : a = b :=
  string_eq_of_data_eq (charListLt_conn a.data b.data hab hba)

theorem charListLt_asymm :
    ∀ a b : List Char, charListLt a b = true → charListLt b a = false
  | a, [], h => by cases a <;> simp [charListLt] at h
  | [], _ :: _, _ => rfl
  | x :: xs, y :: ys, h => by
    simp only [charListLt] at h ⊢
    by_cases hxy : charLtB x y = true
    · have hyx : charLtB y x = false :=
        charLtB_false.mpr (Nat.le_of_lt (charLtB_true.mp hxy))
      rw [if_neg (by simp [hyx]), if_pos hxy]
    · rw [if_neg hxy] at h
      by_cases hyx : charLtB y x = true
      · rw [if_pos hyx] at h
        exact Bool.noConfusion h
      · rw [if_neg hyx] at h
        rw [if_neg hyx, if_neg hxy]
        exact charListLt_asymm xs ys h

theorem jsStrLt_asymm {a b : String} (h : jsStrLt a b = true) : jsStrLt b a = false :=
  charListLt_asymm a.data b.data h

/-! ## Helper lemmas: stability and determinism of `sortParams` -/

theorem pfilter_cons (n : String) (p : String × String) (l : List (String × String)) :
    pfilter n (p :: l) = if p.1 = n then p :: pfilter n l else pfilter n l := by
  simp only [pfilter, List.filter_cons]
  by_cases h : p.1 = n <;> simp [h]

theorem mem_of_mem_pfilter {n : String} {p : String × String}
    {l : List (String × String)} (h : p ∈ pfilter n l) : p ∈ l := by
  simp only [pfilter] at h
  exact List.mem_of_mem_filter h

theorem mem_insertParam {z x : String × String} :
    ∀ {l : List (String × String)}, z ∈ insertParam x l ↔ z = x ∨ z ∈ l := by
  intro l
  induction l with
  | nil => simp [insertParam]
  | cons y ys ih =>
    rw [insertParam]
    by_cases h : jsStrLt y.1 x.1 = true
    · rw [if_pos h, List.mem_cons, ih, List.mem_cons]
      tauto
    · rw [if_neg h]
      simp [List.mem_cons]

theorem pairwise_insertParam {x : String × String} :
    ∀ {l : List (String × String)}, l.Pairwise keyLe → (insertParam x l).Pairwise keyLe := by
  intro l
  induction l with
  | nil => simp [insertParam, List.pairwise_singleton]
  | cons y ys ih =>
    intro h
    rw [List.pairwise_cons] at h
    rw [insertParam]
    by_cases hlt : jsStrLt y.1 x.1 = true
    · rw [if_pos hlt, List.pairwise_cons]
      constructor
      · intro z hz
        rcases mem_insertParam.mp hz with hzx | hzys
        · rw [hzx]
          exact jsStrLt_asymm hlt
        · exact h.1 z hzys
      · exact ih h.2
    · rw [if_neg hlt, List.pairwise_cons]
      constructor
      · intro z hz
        rcases List.mem_cons.mp hz with hzy | hzys
        · rw [hzy]
          simpa using hlt
        · exact jsStrLt_negTrans (h.1 z hzys) (by simpa using hlt)
      · exact List.pairwise_cons.mpr h

theorem pairwise_sortParams (l : List (String × String)) :
    (sortParams l).Pairwise keyLe := by
  induction l with
  | nil => simp [sortParams]
  | cons x xs ih => exact pairwise_insertParam ih

theorem pfilter_insertParam (n : String) (x : String × String) :
    ∀ l : List (String × String), pfilter n (insertParam x l) = pfilter n (x :: l)
  | [] => rfl
  | y :: ys => by
    have ih := pfilter_insertParam n x ys
    by_cases hlt : jsStrLt y.1 x.1 = true
    · rw [insertParam, if_pos hlt]
      by_cases hy : y.1 = n
      · by_cases hx : x.1 = n
        · exfalso
          rw [hy, hx, jsStrLt_irrefl] at hlt
          exact Bool.noConfusion hlt
        · simp only [pfilter_cons, ih, hy, hx, if_true, if_false, reduceIte]
      · simp only [pfilter_cons, ih, hy, if_false, reduceIte]
    · rw [insertParam, if_neg hlt]

theorem pfilter_sortParams (n : String) (l : List (String × String)) :
    pfilter n (sortParams l) = pfilter n l := by
  induction l with
  | nil => rfl
  | cons x xs ih =>
    rw [sortParams, pfilter_insertParam, pfilter_cons, pfilter_cons, ih]

theorem eq_of_sorted_of_pfilter :
    ∀ s t : List (String × String), s.Pairwise keyLe → t.Pairwise keyLe →
      (∀ n, pfilter n s = pfilter n t) → s = t
  | [], [], _, _, _ => rfl
  | [], b :: bs, _, _, h => by
    have hb := h b.1
    rw [pfilter_cons, if_pos rfl] at hb
    exact absurd hb.symm (List.cons_ne_nil _ _)
  | a :: as, [], _, _, h => by
    have ha := h a.1
    rw [pfilter_cons, if_pos rfl] at ha
    exact absurd ha (List.cons_ne_nil _ _)
  | a :: as, b :: bs, hs, ht, h => by
    have hab : a.1 = b.1 := by
      by_contra hne
      have h1 := h a.1
      have h2 := h b.1
      rw [pfilter_cons, pfilter_cons, if_pos rfl, if_neg (fun hh => hne hh.symm)] at h1
      rw [pfilter_cons, pfilter_cons, if_neg hne, if_pos rfl] at h2
      have hmem_a : a ∈ bs := by
        refine mem_of_mem_pfilter (n := a.1) ?_
        rw [← h1]
        exact List.mem_cons_self a _
      have hmem_b : b ∈ as := by
        refine mem_of_mem_pfilter (n := b.1) ?_
        rw [h2]
        exact List.mem_cons_self b _
      have hba : keyLe b a := List.rel_of_pairwise_cons ht hmem_a
      have hab2 : keyLe a b := List.rel_of_pairwise_cons hs hmem_b
      exact hne (jsStrLt_conn hba hab2)
    have h1 := h a.1
    rw [pfilter_cons, pfilter_cons, if_pos rfl, if_pos hab.symm] at h1
    rw [List.cons.injEq] at h1
    have htails : ∀ n, pfilter n as = pfilter n bs := by
      intro n
      by_cases hn : a.1 = n
      · rw [← hn]
        exact h1.2
      · have hn2 := h n
        rw [pfilter_cons, pfilter_cons, if_neg hn,
          if_neg (fun hh => hn (hab.trans hh))] at hn2
        exact hn2
    rw [h1.1, eq_of_sorted_of_pfilter as bs (List.Pairwise.of_cons hs)
      (List.Pairwise.of_cons ht) htails]

theorem sortParams_pfilter_eq {l1 l2 : List (String × String)}
    (h : ∀ n, pfilter n l1 = pfilter n l2) : sortParams l1 = sortParams l2 := by
  refine eq_of_sorted_of_pfilter _ _ (pairwise_sortParams l1) (pairwise_sortParams l2) ?_
  intro n
  rw [pfilter_sortParams, pfilter_sortParams]
  exact h n

/-! ## Helper lemmas: the origin gateway always reaches the dispatch guard -/

theorem originDispatch_eq (o : URLRec) (k : String) (p : List (String × String)) :
    originDispatch o k p = some (buildTransformUrl o k p) := by
  unfold originDispatch
  exact if_pos rfl

theorem fetchFromOrigin_run (o : URLRec) (k : String) (p : List (String × String))
    (out : FetchOutcome) :
    fetchFromOrigin o k p out =
      (match out with
       | .success r => Except.ok r
       | .failure (.errObj n) =>
         if n == "TimeoutError" then Except.error ⟨504, "Gateway Timeout"⟩
         else Except.error ⟨502, "Bad Gateway"⟩
       | .failure .nonError => Except.error ⟨502, "Bad Gateway"⟩) := by
  unfold fetchFromOrigin
  rw [originDispatch_eq]

/-! ## Claim theorems -/

/-- Claim C1: for every configured origin, key and query parameters,
`fetchFromOrigin` either dispatches a request whose URL origin is
byte-for-byte the origin of the configured base URL, or throws a 400
client error before any dispatch (in which case the fetch outcome is
never consulted). -/
theorem fetchFromOrigin_ssrf_invariant (o : URLRec) (k : String)
    (p : List (String × String)) :
    (match originDispatch o k p with
     | some u => urlOrigin u = urlOrigin o
     | none => ∀ out : FetchOutcome,
         fetchFromOrigin o k p out = Except.error ⟨400, "Invalid origin URL"⟩) := by
  rw [originDispatch_eq]
  exact rfl

/-- Claim C2 counterexample: two URLs with the same scheme, host, path
and the same multiset of query pairs, in which the duplicated name `a`
carries its two values in different relative orders, produce different
canonical strings (`?a=1&a=2` versus `?a=2&a=1`), because the stable
sort keyed on the name alone preserves each relative order. -/
theorem createCacheKey_duplicate_order_counterexample :
    ([("a", "1"), ("a", "2")] : List (String × String)).Perm [("a", "2"), ("a", "1")] ∧
    createCacheKey ⟨"http", "example.com", "", "/images/a.png", [("a", "1"), ("a", "2")]⟩ ≠
      createCacheKey ⟨"http", "example.com", "", "/images/a.png", [("a", "2"), ("a", "1")]⟩ :=
  ⟨List.Perm.swap _ _ _, by decide⟩

/-- Claim C2 (amended): for every two URLs with the same scheme, host,
port and path whose query parameter lists carry the same multiset of
(name, value) pairs with, for each name, the same relative order of that
name's occurrences (equivalently: the same per-name filtered
sub-sequences), `createCacheKey` produces the identical canonical
string. -/
theorem createCacheKey_param_order_invariant (u1 u2 : URLRec)
    (hscheme : u1.scheme = u2.scheme) (hhost : u1.host = u2.host)
    (hport : u1.port = u2.port) (hpath : u1.path = u2.path)
    (hparams : ∀ n ∈ u1.params.map Prod.fst ++ u2.params.map Prod.fst,
      pfilter n u1.params = pfilter n u2.params) :
    createCacheKey u1 = createCacheKey u2 := by
  have hall : ∀ n, pfilter n u1.params = pfilter n u2.params := by
    intro n
    by_cases hmem : n ∈ u1.params.map Prod.fst ++ u2.params.map Prod.fst
    · exact hparams n hmem
    · rw [List.mem_append, not_or] at hmem
      have e1 : pfilter n u1.params = [] := by
        rw [pfilter, List.filter_eq_nil_iff]
        intro q hq
        simp only [beq_iff_eq]
        intro hqn
        exact hmem.1 (hqn ▸ List.mem_map_of_mem Prod.fst hq)
      have e2 : pfilter n u2.params = [] := by
        rw [pfilter, List.filter_eq_nil_iff]
        intro q hq
        simp only [beq_iff_eq]
        intro hqn
        exact hmem.2 (hqn ▸ List.mem_map_of_mem Prod.fst hq)
      rw [e1, e2]
  have hsort : sortParams u1.params = sortParams u2.params :=
    sortParams_pfilter_eq hall
  simp only [createCacheKey, urlToString, urlOrigin, hscheme, hhost, hport, hpath, hsort]

theorem createCacheKey_param_order_invariant_witness :
    createCacheKey ⟨"http", "example.com", "", "/images/a.png", [("b", "2"), ("a", "1")]⟩ =
      createCacheKey ⟨"http", "example.com", "", "/images/a.png", [("a", "1"), ("b", "2")]⟩ :=
  createCacheKey_param_order_invariant _ _ rfl rfl rfl rfl (by decide)

/-- Claim C3: when the dispatched fetch throws an `Error` named
`TimeoutError` (expiry of the fixed 30-second bound) the caller receives
a 504 Gateway Timeout; every other transport failure yields a 502 Bad
Gateway; a successful fetch is returned unmodified. -/
theorem fetchFromOrigin_status_mapping (o : URLRec) (k : String)
    (p : List (String × String)) :
    (∀ r : ResponseRec, fetchFromOrigin o k p (.success r) = Except.ok r) ∧
    (∀ n : String, fetchFromOrigin o k p (.failure (.errObj n)) =
      if n == "TimeoutError" then Except.error ⟨504, "Gateway Timeout"⟩
      else Except.error ⟨502, "Bad Gateway"⟩) ∧
    (fetchFromOrigin o k p (.failure .nonError) = Except.error ⟨502, "Bad Gateway"⟩) ∧
    ORIGIN_TIMEOUT_MS = 30000 := by
  refine ⟨fun r => ?_, fun n => ?_, ?_, rfl⟩ <;> rw [fetchFromOrigin_run]

/-- Claim C4: `validateKey` accepts exactly the non-empty keys over the
character class `[a-zA-Z0-9\-_/.]` that contain no `..`, do not start
with `/` and contain no `//`; every other key is rejected. -/
theorem validateKey_characterization (k : String) :
    validateKey k = true ↔
      (k ≠ "" ∧ strContains k ".." = false ∧ strStartsWith k "/" = false ∧
        strContains k "//" = false ∧ k.data.all isSafeKeyChar = true) := by
  by_cases h1 : k = ""
  · simp [validateKey, h1]
  by_cases h2 : strContains k ".." = true
  · simp [validateKey, h1, h2]
  by_cases h3 : strStartsWith k "/" = true
  · simp [validateKey, h1, h2, h3]
  by_cases h4 : strContains k "//" = true
  · simp [validateKey, h1, h2, h3, h4]
  have hd : k.data.isEmpty = false := by
    cases hk : k.data with
    | nil => exact absurd (string_eq_of_data_eq (hk.trans rfl)) h1
    | cons c cs => rfl
  simp [validateKey, safeKeyTest, h1, h2, h3, h4, hd]

/-- Claim C5 counterexample: a response carrying a `Cache-Control`
header with the empty value satisfies the claim's storage condition (the
value contains none of the forbidden directives), yet `putCache` writes
nothing, because the code treats the empty header value as falsy. -/
theorem putCache_empty_value_counterexample :
    claimAllowsStore ⟨200, "OK", [("Cache-Control", "")], []⟩ = true ∧
    putCache [] ⟨"http", "host.test", "", "/images/x.png", []⟩
        ⟨200, "OK", [("Cache-Control", "")], []⟩ = [] ∧
    cachePut [] (createCacheKey ⟨"http", "host.test", "", "/images/x.png", []⟩)
        ⟨200, "OK", [("Cache-Control", "")], []⟩ ≠ [] :=
  ⟨by decide, by decide, by decide⟩

/-- Claim C5 (amended): `putCache` stores a copy of the response under
the canonical cache key if and only if the response carries a
`Cache-Control` header with a non-empty value whose case-insensitive
text contains neither `no-store` nor `private` nor a `max-age` directive
equal to zero (arbitrary whitespace tolerated around `=`); in every
other case it returns the store unchanged. -/
theorem putCache_policy (cache : CacheModel) (u : URLRec) (r : ResponseRec) :
    putCache cache u r =
      if specAllowsStore r then cachePut cache (createCacheKey u) r else cache := by
  unfold putCache specAllowsStore
  cases headersGet r.headers "Cache-Control" with
  | none => rfl
  | some cc =>
    by_cases h0 : (cc == "") = true
    · simp [h0]
    · by_cases hns : strContains (lowerStr cc) "no-store" = true
      · simp [h0, hns]
      · by_cases hpr : strContains (lowerStr cc) "private" = true
        · simp [h0, hns, hpr]
        · by_cases hma : maxAgeZeroTest (lowerStr cc) = true
          · simp [h0, hns, hpr, hma]
          · simp [h0, hns, hpr, hma]

/-- Claim C6 counterexample: a buffer matching both the JPEG prefix and
the WebP signature at bytes 8–11 is classified as `image/jpeg`, not as
the `image/webp` the table assigns to the matching WebP signature. -/
theorem detectMimeType_overlap_counterexample :
    sigWebp (([0xff, 0xd8, 0xff, 0, 0, 0, 0, 0,
        0x57, 0x45, 0x42, 0x50, 0, 0, 0, 0] : List Nat).take 16) = true ∧
    detectMimeType [0xff, 0xd8, 0xff, 0, 0, 0, 0, 0,
        0x57, 0x45, 0x42, 0x50, 0, 0, 0, 0] = Except.ok "image/jpeg" ∧
    (Except.ok "image/jpeg" : Except String String) ≠ Except.ok "image/webp" :=
  ⟨by decide, by decide, by decide⟩

/-- Claim C6 (amended): `detectMimeType` throws `Unsupported file type`
if and only if the first 16 bytes match none of the five signatures;
when at least one signature matches, it returns the MIME type the table
assigns to the first matching signature in table order (JPEG, PNG, GIF,
WebP, AVIF). -/
theorem detectMimeType_signature_table (b : List Nat) :
    detectMimeType b =
      (match sigResults (b.take 16) with
       | [] => Except.error "Unsupported file type"
       | m :: _ => Except.ok m) := by
  by_cases h1 : sigJpeg (b.take 16) = true <;>
    by_cases h2 : sigPng (b.take 16) = true <;>
    by_cases h3 : sigGif (b.take 16) = true <;>
    by_cases h4 : sigWebp (b.take 16) = true <;>
    by_cases h5 : sigAvif (b.take 16) = true <;>
    simp [detectMimeType, sigResults, h1, h2, h3, h4, h5]

/-- Claim C7 counterexample: the 3-byte buffer `FF D8 FF` is shorter
than 16 bytes yet does not fail — it matches the JPEG signature, whose
required bytes all lie within the buffer. -/
theorem detectMimeType_short_jpeg_counterexample :
    ([0xff, 0xd8, 0xff] : List Nat).length < 16 ∧
    detectMimeType [0xff, 0xd8, 0xff] = Except.ok "image/jpeg" :=
  ⟨by decide, by decide⟩

/-- Claim C7 (amended): every buffer shorter than 3 bytes — the length
of the shortest signature — fails every signature and throws the
unsupported-type error regardless of its byte values; buffers of length
3 to 15 can still match a signature that fits inside them. -/
theorem detectMimeType_short_buffer (b : List Nat) (h : b.length < 3) :
    detectMimeType b = Except.error "Unsupported file type" := by
  have hlen : (b.take 16).length < 3 := by
    rw [List.length_take]
    omega
  have e2 : (b.take 16)[2]? = none := List.getElem?_eq_none (by omega)
  have e3 : (b.take 16)[3]? = none := List.getElem?_eq_none (by omega)
  have e4 : (b.take 16)[4]? = none := List.getElem?_eq_none (by omega)
  have e8 : (b.take 16)[8]? = none := List.getElem?_eq_none (by omega)
  simp [detectMimeType, sigJpeg, sigPng, sigGif, sigWebp, sigAvif, e2, e3, e4, e8]

theorem detectMimeType_short_buffer_witness :
    ([0xab] : List Nat).length < 3 ∧
    detectMimeType [0xab] = Except.error "Unsupported file type" :=
  ⟨by decide, detectMimeType_short_buffer [0xab] (by decide)⟩

/-- Claim C8: a PUT request with a valid key whose declared
Content-Length parses to a number strictly above the 10 MiB ceiling is
answered 413 with the body never read. -/
theorem putImages_declared_oversize (req : PutRequest) (key cl : String) (n : Int)
    (hkey : extractKeyFromPath req.path = some key)
    (hvalid : validateKey key = true)
    (hcl : req.contentLength = some cl)
    (hparse : parseIntJs cl = some n)
    (hbig : (MAX_FILE_SIZE : Int) < n) :
    putImages req = ⟨413, false, none⟩ := by
  have hne : (cl == "") = false := by
    by_cases hc : cl = ""
    · rw [hc, show parseIntJs "" = none from rfl] at hparse
      exact Option.noConfusion hparse
    · simp [hc]
  have hdecl : declaredTooLarge req.contentLength = true := by
    rw [hcl]
    unfold declaredTooLarge
    simp [hne, hparse, hbig]
  unfold putImages
  rw [hkey]
  simp [hvalid, hdecl]

theorem putImages_declared_oversize_witness :
    putImages ⟨"/images/x.png", some "20000000", []⟩ = ⟨413, false, none⟩ :=
  putImages_declared_oversize ⟨"/images/x.png", some "20000000", []⟩ "x.png"
    "20000000" 20000000 (by decide) (by decide) rfl (by decide) (by decide)

/-- Claim C9: on the GET read path the cache write-back is scheduled only
for an origin response whose status is 2xx (`Response.ok`); for a
non-2xx origin response nothing is scheduled and the cache store is left
unchanged, whatever Cache-Control header the response carries. -/
theorem getImages_writeback_requires_ok (env req : URLRec) (cache : CacheModel)
    (r : ResponseRec) (h : responseOk r = false) :
    (getImages env req cache (.success r)).1.scheduled = false ∧
    (getImages env req cache (.success r)).2 = cache := by
  unfold getImages
  cases hk : extractKeyFromPath req.path with
  | none => exact ⟨rfl, rfl⟩
  | some key =>
    by_cases hv : validateKey key = true
    · simp only [hv, if_true]
      cases hm : matchCache cache req with
      | some cached => exact ⟨rfl, rfl⟩
      | none => simp [fetchFromOrigin_run, h]
    · simp [hv]

theorem getImages_writeback_requires_ok_witness :
    responseOk ⟨404, "Not Found", [("Cache-Control", "public")], []⟩ = false ∧
    (getImages ⟨"https", "origin.test", "", "/", []⟩
        ⟨"https", "cdn.test", "", "/images/x.png", [("w", "10")]⟩ []
        (.success ⟨404, "Not Found", [("Cache-Control", "public")], []⟩)).1.scheduled = false ∧
    (getImages ⟨"https", "origin.test", "", "/", []⟩
        ⟨"https", "cdn.test", "", "/images/x.png", [("w", "10")]⟩ []
        (.success ⟨404, "Not Found", [("Cache-Control", "public")], []⟩)).2 = [] :=
  ⟨by decide, (getImages_writeback_requires_ok _ _ _ _ (by decide)).1,
    (getImages_writeback_requires_ok _ _ _ _ (by decide)).2⟩

/-- Claim C10: on the PUT path, when the Content-Length header is absent
or does not parse to a number, the declared-size guard never fires: the
body is always read, and the request is answered 413 exactly when the
materialized body itself exceeds the 10 MiB ceiling. -/
theorem putImages_unparsable_length (req : PutRequest) (key : String)
    (hkey : extractKeyFromPath req.path = some key)
    (hvalid : validateKey key = true)
    (hcl : req.contentLength = none ∨
      ∃ cl, req.contentLength = some cl ∧ parseIntJs cl = none) :
    (putImages req).bodyRead = true ∧
    ((putImages req).status = 413 ↔ MAX_FILE_SIZE < req.body.length) := by
  have hdecl : declaredTooLarge req.contentLength = false := by
    rcases hcl with h | ⟨cl, hsome, hnone⟩
    · rw [h]
      rfl
    · rw [hsome]
      unfold declaredTooLarge
      by_cases hc : (cl == "") = true
      · simp [hc]
      · simp [hc, hnone]
  unfold putImages
  rw [hkey]
  simp only [hvalid, if_true, hdecl, Bool.false_eq_true, if_false]
  by_cases hb : MAX_FILE_SIZE < req.body.length
  · simp [hb]
  · simp only [hb, reduceIte, iff_false]
    cases hd : detectMimeType req.body <;> simp [hb]

theorem putImages_unparsable_length_witness :
    (putImages ⟨"/images/x.png", some "abc", [0x47, 0x49, 0x46]⟩).bodyRead = true ∧
    ((putImages ⟨"/images/x.png", some "abc", [0x47, 0x49, 0x46]⟩).status = 413 ↔
      MAX_FILE_SIZE < (⟨"/images/x.png", some "abc", [0x47, 0x49, 0x46]⟩ : PutRequest).body.length) :=
  putImages_unparsable_length ⟨"/images/x.png", some "abc", [0x47, 0x49, 0x46]⟩ "x.png"
    (by decide) (by decide) (Or.inr ⟨"abc", rfl, by decide⟩)

end ImageCDN
